import Mathlib

/-!
Verification of the compatibility scoring and ranking engine of the
roommate-finder application (src/app.py), shallowly embedded in Lean.

Python floats are modelled as exact rationals, and `round(x, 1)` is
modelled as round-half-to-even at one decimal place over ℚ.  The
nullable text columns holding comma-delimited data are modelled as
`String`, with `""` standing for both SQL NULL and the empty string
(Python truthiness treats both the same way in `get_locations_list` /
`get_lifestyle_list`); the nullable integer column `budget` is
`Option Nat` (the documented domain is non-negative).
-/

/-- A user profile, restricted to the fields the scoring and ranking
engine reads (the `User` model of src/app.py). -/
structure User where
  id : Nat
  budget : Option Nat
  preferred_locations : String
  lifestyle : String
  deriving DecidableEq

/-- Python's `str.split(',')` over the character list of a string:
`""` yields `[""]`, and consecutive commas yield empty segments. -/
def pySplitComma : List Char → List (List Char)
  | [] => [[]]
  | c :: cs =>
    if c = ',' then [] :: pySplitComma cs
    else match pySplitComma cs with
      | [] => [[c]]
      | seg :: segs => (c :: seg) :: segs

/-- Python's `str.strip()`: drop whitespace from both ends. -/
def pyStrip (cs : List Char) : List Char :=
  ((cs.dropWhile Char.isWhitespace).reverse.dropWhile Char.isWhitespace).reverse

/-- Python's `str.lower()` (ASCII case folding). -/
def pyLower (cs : List Char) : List Char := cs.map Char.toLower

/-- Embedding of `User.get_locations_list` (src/app.py lines 97-101):
when the raw text is truthy (non-empty), split on comma and strip each
segment; empty segments are NOT dropped. -/
def User.get_locations_list (u : User) : List String :=
  if u.preferred_locations = "" then []
  else (pySplitComma u.preferred_locations.data).map
    (fun seg => String.mk (pyStrip seg))

/-- Embedding of `User.get_lifestyle_list` (src/app.py lines 91-95). -/
def User.get_lifestyle_list (u : User) : List String :=
  if u.lifestyle = "" then []
  else (pySplitComma u.lifestyle.data).map (fun seg => String.mk (pyStrip seg))

/-- The location set compared by `calculate_compatibility`
(src/app.py line 249): lower-cased entries of `get_locations_list`,
collected into a set. -/
def normalized_locations (u : User) : Finset String :=
  (u.get_locations_list.map (fun s => String.mk (pyLower s.data))).toFinset

/-- The lifestyle set compared by `calculate_compatibility`
(src/app.py line 273). -/
def normalized_lifestyle (u : User) : Finset String :=
  (u.get_lifestyle_list.map (fun s => String.mk (pyLower s.data))).toFinset

/-- Location component of `calculate_compatibility`
(src/app.py lines 247-257): if both location sets are truthy
(non-empty) and the intersection is truthy, add
`min(len(common) * 2.5, 5)`. -/
def location_component (user1 user2 : User) : ℚ :=
  let locations1 := normalized_locations user1
  let locations2 := normalized_locations user2
  if locations1 ≠ ∅ ∧ locations2 ≠ ∅ then
    let common := locations1 ∩ locations2
    if common ≠ ∅ then min ((common.card : ℚ) * 2.5) 5 else 0
  else 0

/-- Budget component of `calculate_compatibility`
(src/app.py lines 259-269).  Python's `if user1.budget and
user2.budget:` is truthy only when both budgets are present AND
non-zero (0 is falsy in Python). -/
def budget_component (user1 user2 : User) : ℚ :=
  match user1.budget, user2.budget with
  | some b1, some b2 =>
    if b1 ≠ 0 ∧ b2 ≠ 0 then
      let budget_diff : ℚ := |(b1 : ℚ) - (b2 : ℚ)|
      let max_budget : ℚ := max (b1 : ℚ) (b2 : ℚ)
      if 0 < max_budget then max 0 (3 * (1 - budget_diff / max_budget))
      else 0
    else 0
  | _, _ => 0

/-- Lifestyle component of `calculate_compatibility`
(src/app.py lines 271-282): Jaccard similarity of the two lifestyle
sets, times 2, guarded by truthiness of both sets and of the union. -/
def lifestyle_component (user1 user2 : User) : ℚ :=
  let lifestyle1 := normalized_lifestyle user1
  let lifestyle2 := normalized_lifestyle user2
  if lifestyle1 ≠ ∅ ∧ lifestyle2 ≠ ∅ then
    let common := lifestyle1 ∩ lifestyle2
    let total := lifestyle1 ∪ lifestyle2
    if total ≠ ∅ then ((common.card : ℚ) / (total.card : ℚ)) * 2 else 0
  else 0

/-- Round a rational to the nearest integer, ties to even — the
rounding mode of CPython's `round`. -/
def roundHalfEven (q : ℚ) : ℤ :=
  let f := ⌊q⌋
  if q - f < 1 / 2 then f
  else if 1 / 2 < q - f then f + 1
  else if f % 2 = 0 then f else f + 1

/-- Model of Python's `round(x, 1)`: round to one decimal place,
ties to even. -/
def round1 (q : ℚ) : ℚ := (roundHalfEven (q * 10) : ℚ) / 10

/-- Embedding of `calculate_compatibility` (src/app.py lines 231-285):
the three components are accumulated into `score`, which is finally
clamped at 10 and rounded to one decimal place. -/
def calculate_compatibility (user1 user2 : User) : ℚ :=
  round1 (min (location_component user1 user2 + budget_component user1 user2 +
    lifestyle_component user1 user2) 10)

/-- Checked division: `none` exactly when the divisor is zero, modelling
the possibility of a Python `ZeroDivisionError`. -/
def safeDiv (x y : ℚ) : Option ℚ := if y = 0 then none else some (x / y)

/-- The budget component with its division checked. -/
def budget_component_checked (user1 user2 : User) : Option ℚ :=
  match user1.budget, user2.budget with
  | some b1, some b2 =>
    if b1 ≠ 0 ∧ b2 ≠ 0 then
      let budget_diff : ℚ := |(b1 : ℚ) - (b2 : ℚ)|
      let max_budget : ℚ := max (b1 : ℚ) (b2 : ℚ)
      if 0 < max_budget then
        (safeDiv budget_diff max_budget).map (fun d => max 0 (3 * (1 - d)))
      else some 0
    else some 0
  | _, _ => some 0

/-- The lifestyle component with its division checked. -/
def lifestyle_component_checked (user1 user2 : User) : Option ℚ :=
  let lifestyle1 := normalized_lifestyle user1
  let lifestyle2 := normalized_lifestyle user2
  if lifestyle1 ≠ ∅ ∧ lifestyle2 ≠ ∅ then
    let common := lifestyle1 ∩ lifestyle2
    let total := lifestyle1 ∪ lifestyle2
    if total ≠ ∅ then
      (safeDiv (common.card : ℚ) (total.card : ℚ)).map (fun j => j * 2)
    else some 0
  else some 0

/-- `calculate_compatibility` with every division checked: it returns
`none` exactly when some division in the Python code would raise. -/
def calculate_compatibility_checked (user1 user2 : User) : Option ℚ :=
  (budget_component_checked user1 user2).bind fun s2 =>
  (lifestyle_component_checked user1 user2).map fun s3 =>
  round1 (min (location_component user1 user2 + s2 + s3) 10)

/-- The scoring loop of `browse_roommates` (src/app.py lines 628-636):
each surviving candidate is paired with score 0 when there is no
logged-in reference user, and with `calculate_compatibility reference
candidate` otherwise. -/
def score_candidates (reference : Option User) (users : List User) :
    List (User × ℚ) :=
  users.map fun user =>
    (user, match reference with
           | some r => calculate_compatibility r user
           | none => 0)

/-- Insert into a descending-sorted list, placing the new element before
the first element whose score is not greater: the position a stable
descending sort gives an element preceding the list. -/
def insertDesc (x : User × ℚ) : List (User × ℚ) → List (User × ℚ)
  | [] => [x]
  | y :: ys => if y.2 ≤ x.2 then x :: y :: ys else y :: insertDesc x ys

/-- Stable descending insertion sort by score, the model of Python's
stable `list.sort(key=lambda x: score, reverse=True)` at src/app.py
line 640. -/
def sortDesc : List (User × ℚ) → List (User × ℚ)
  | [] => []
  | x :: xs => insertDesc x (sortDesc xs)

/-- The ranking step of `browse_roommates` (src/app.py lines 628-640):
score every surviving candidate, then sort by descending score only
when a reference user is present. -/
def rank (reference : Option User) (users : List User) : List (User × ℚ) :=
  let scored := score_candidates reference users
  match reference with
  | some _ => sortDesc scored
  | none => scored

/-- SQL comparison `User.budget >= bound` under three-valued logic: a
NULL budget makes the comparison unknown, so the row is filtered out. -/
def sql_budget_ge (budget : Option Nat) (bound : Int) : Bool :=
  match budget with
  | some b => decide (bound ≤ (b : Int))
  | none => false

/-- SQL comparison `User.budget <= bound` under three-valued logic. -/
def sql_budget_le (budget : Option Nat) (bound : Int) : Bool :=
  match budget with
  | some b => decide ((b : Int) ≤ bound)
  | none => false

/-- The budget pre-filter of `browse_roommates` (src/app.py lines
619-623): each bound is applied only when truthy (present and
non-zero), as independent AND conditions. -/
def apply_budget_filters (min_budget max_budget : Option Int)
    (users : List User) : List User :=
  let users1 := match min_budget with
    | some m =>
      if m ≠ 0 then users.filter (fun u => sql_budget_ge u.budget m) else users
    | none => users
  match max_budget with
  | some m =>
    if m ≠ 0 then users1.filter (fun u => sql_budget_le u.budget m) else users1
  | none => users1

theorem roundHalfEven_ge_floor (q : ℚ) : ⌊q⌋ ≤ roundHalfEven q := by
  unfold roundHalfEven
  dsimp only
  split
  · exact le_refl _
  · split
    · omega
    · split
      · exact le_refl _
      · omega

theorem roundHalfEven_le (q : ℚ) (n : ℤ) (h : q ≤ (n : ℚ)) :
    roundHalfEven q ≤ n := by
  have hfn : ⌊q⌋ ≤ n := by
    have := Int.floor_mono h
    rwa [Int.floor_intCast] at this
  have hfq : (⌊q⌋ : ℚ) ≤ q := Int.floor_le q
  unfold roundHalfEven
  dsimp only
  split
  · exact hfn
  · next h1 =>
    have h1' : 1 / 2 ≤ q - (⌊q⌋ : ℚ) := not_lt.mp h1
    have hlt : (⌊q⌋ : ℚ) < (n : ℚ) := by linarith
    have hf1 : ⌊q⌋ + 1 ≤ n := by
      have : ⌊q⌋ < n := by exact_mod_cast hlt
      omega
    split
    · exact hf1
    · split
      · exact hfn
      · exact hf1

theorem round1_nonneg (q : ℚ) (h : 0 ≤ q) : 0 ≤ round1 q := by
  unfold round1
  apply div_nonneg _ (by norm_num)
  have h0 : (0 : ℤ) ≤ roundHalfEven (q * 10) := by
    have hfl : (0 : ℤ) ≤ ⌊q * 10⌋ := Int.le_floor.mpr (by push_cast; linarith)
    exact le_trans hfl (roundHalfEven_ge_floor _)
  exact_mod_cast h0

theorem round1_le_ten (q : ℚ) (h : q ≤ 10) : round1 q ≤ 10 := by
  unfold round1
  rw [div_le_iff₀ (by norm_num : (0 : ℚ) < 10)]
  have hle : roundHalfEven (q * 10) ≤ 100 :=
    roundHalfEven_le _ 100 (by push_cast; linarith)
  have : ((roundHalfEven (q * 10) : ℤ) : ℚ) ≤ (100 : ℚ) := by exact_mod_cast hle
  linarith

theorem location_component_nonneg (a b : User) : 0 ≤ location_component a b := by
  unfold location_component
  dsimp only
  split
  · split
    · exact le_min (by positivity) (by norm_num)
    · exact le_refl 0
  · exact le_refl 0

theorem budget_component_nonneg (a b : User) : 0 ≤ budget_component a b := by
  unfold budget_component
  split
  · dsimp only
    split
    · split
      · exact le_max_left 0 _
      · exact le_refl 0
    · exact le_refl 0
  · exact le_refl 0

theorem lifestyle_component_nonneg (a b : User) :
    0 ≤ lifestyle_component a b := by
  unfold lifestyle_component
  dsimp only
  split
  · split
    · positivity
    · exact le_refl 0
  · exact le_refl 0

/-- C1: for all well-formed profiles the score is the rounded, clamped
sum of the three components, and it lies in the closed interval
[0, 10]. -/
theorem score_formula_and_bounds (a b : User) :
    calculate_compatibility a b =
      round1 (min (location_component a b + budget_component a b +
        lifestyle_component a b) 10) ∧
    0 ≤ calculate_compatibility a b ∧ calculate_compatibility a b ≤ 10 := by
  refine ⟨rfl, ?_, ?_⟩
  · apply round1_nonneg
    have h1 := location_component_nonneg a b
    have h2 := budget_component_nonneg a b
    have h3 := lifestyle_component_nonneg a b
    exact le_min (by linarith) (by norm_num)
  · exact round1_le_ten _ (min_le_right _ _)

theorem roundHalfEven_intCast (n : ℤ) : roundHalfEven (n : ℚ) = n := by
  unfold roundHalfEven
  dsimp only
  rw [Int.floor_intCast, sub_self]
  norm_num

theorem round1_ten : round1 (10 : ℚ) = 10 := by
  unfold round1
  have h : (10 : ℚ) * 10 = ((100 : ℤ) : ℚ) := by norm_num
  rw [h, roundHalfEven_intCast]
  norm_num

theorem round1_zero : round1 (0 : ℚ) = 0 := by
  unfold round1
  have h : (0 : ℚ) * 10 = ((0 : ℤ) : ℚ) := by norm_num
  rw [h, roundHalfEven_intCast]
  norm_num

theorem budget_component_same (u1 u2 : User) (b : ℕ) (h1 : u1.budget = some b)
    (h2 : u2.budget = some b) (hb : b ≠ 0) : budget_component u1 u2 = 3 := by
  unfold budget_component
  rw [h1, h2]
  dsimp only
  have hmax : (0 : ℚ) < max (b : ℚ) (b : ℚ) := by
    rw [max_self]
    exact_mod_cast Nat.pos_of_ne_zero hb
  rw [if_pos ⟨hb, hb⟩, if_pos hmax, sub_self, abs_zero, zero_div]
  norm_num

/-- A profile whose budget is literally 0 (present, not absent). -/
def zero_budget_user : User := ⟨30, some 0, "", ""⟩

/-- A second profile with budget 0. -/
def zero_budget_user2 : User := ⟨31, some 0, "", ""⟩

/-- C2 counterexample: with both budgets present and equal to 0 the
budget component is 0, not 3.0 — `if user1.budget and user2.budget:`
treats a zero budget as falsy. -/
theorem budget_component_zero_budgets_ne_three :
    budget_component zero_budget_user zero_budget_user2 ≠ 3 := by
  have h : budget_component zero_budget_user zero_budget_user2 = 0 := rfl
  rw [h]
  norm_num

/-- C2 (amended): for profiles whose budgets are both present, equal
and non-zero, the budget component is exactly 3.0; when both are 0 the
Python truthiness check skips the component, which contributes 0. -/
theorem budget_component_equal_nonzero_eq_three (u1 u2 : User) (b : ℕ)
    (h1 : u1.budget = some b) (h2 : u2.budget = some b) (hb : b ≠ 0) :
    budget_component u1 u2 = 3 :=
  budget_component_same u1 u2 b h1 h2 hb

/-- Witness for the amended C2 at budget 800. -/
theorem budget_component_equal_nonzero_eq_three_witness :
    budget_component ⟨40, some 800, "", ""⟩ ⟨41, some 800, "", ""⟩ = 3 :=
  budget_component_equal_nonzero_eq_three ⟨40, some 800, "", ""⟩
    ⟨41, some 800, "", ""⟩ 800 rfl rfl (by decide)

/-- A profile with exactly one preferred location, a budget, and one
lifestyle tag. -/
def one_loc_user : User := ⟨50, some 800, "mumbai", "clean"⟩

/-- C3 counterexample: a profile with one location, a present budget
and one lifestyle tag is in the claim's domain, yet its self-score is
7.5 (= 2.5 + 3 + 2), not 10.0: a singleton intersection only yields
2.5 location points. -/
theorem self_score_single_location_ne_ten :
    1 ≤ (normalized_locations one_loc_user).card ∧
    one_loc_user.budget = some 800 ∧
    normalized_lifestyle one_loc_user ≠ ∅ ∧
    calculate_compatibility one_loc_user one_loc_user ≠ 10 := by
  refine ⟨by decide, rfl, by decide, ?_⟩
  have h : calculate_compatibility one_loc_user one_loc_user = 15 / 2 := by
    with_unfolding_all decide
  rw [h]
  norm_num

/-- C3 (amended): the self-score is 10.0 whenever the profile has at
least TWO distinct normalized locations, a non-zero budget, and at
least one lifestyle tag. -/
theorem self_score_saturates (a : User)
    (hloc : 2 ≤ (normalized_locations a).card)
    (b : ℕ) (hb : a.budget = some b) (hbnz : b ≠ 0)
    (hlife : normalized_lifestyle a ≠ ∅) :
    calculate_compatibility a a = 10 := by
  have hl : location_component a a = 5 := by
    unfold location_component
    dsimp only
    have hne : normalized_locations a ≠ ∅ := by
      intro h
      rw [h, Finset.card_empty] at hloc
      omega
    rw [if_pos ⟨hne, hne⟩, Finset.inter_self, if_pos hne]
    have h2 : (5 : ℚ) ≤ (normalized_locations a).card * 2.5 := by
      have hc : (2 : ℚ) ≤ ((normalized_locations a).card : ℚ) := by
        exact_mod_cast hloc
      nlinarith
    exact min_eq_right h2
  have hbud : budget_component a a = 3 := budget_component_same a a b hb hb hbnz
  have hls : lifestyle_component a a = 2 := by
    unfold lifestyle_component
    dsimp only
    rw [if_pos ⟨hlife, hlife⟩, Finset.inter_self, Finset.union_self,
      if_pos hlife]
    have hcard : ((normalized_lifestyle a).card : ℚ) ≠ 0 := by
      exact_mod_cast Finset.card_ne_zero.mpr
        (Finset.nonempty_iff_ne_empty.mpr hlife)
    rw [div_self hcard]
    norm_num
  unfold calculate_compatibility
  rw [hl, hbud, hls]
  have hsum : (5 : ℚ) + 3 + 2 = 10 := by norm_num
  rw [hsum, min_self, round1_ten]

/-- A profile with two locations, a budget, and one lifestyle tag. -/
def two_loc_user : User := ⟨51, some 800, "mumbai, pune", "clean"⟩

/-- Witness for the amended C3 on a concrete two-location profile. -/
theorem self_score_saturates_witness :
    calculate_compatibility two_loc_user two_loc_user = 10 :=
  self_score_saturates two_loc_user (by decide) 800 rfl (by decide) (by decide)

theorem budget_component_checked_eq (a b : User) :
    budget_component_checked a b = some (budget_component a b) := by
  unfold budget_component_checked budget_component
  cases a.budget with
  | none => rfl
  | some b1 =>
    cases b.budget with
    | none => rfl
    | some b2 =>
      dsimp only
      by_cases hcond : b1 ≠ 0 ∧ b2 ≠ 0
      · rw [if_pos hcond, if_pos hcond]
        by_cases hmax : (0 : ℚ) < max (b1 : ℚ) (b2 : ℚ)
        · rw [if_pos hmax, if_pos hmax]
          unfold safeDiv
          rw [if_neg (ne_of_gt hmax)]
          rfl
        · rw [if_neg hmax, if_neg hmax]
      · rw [if_neg hcond, if_neg hcond]

theorem lifestyle_component_checked_eq (a b : User) :
    lifestyle_component_checked a b = some (lifestyle_component a b) := by
  unfold lifestyle_component_checked lifestyle_component
  dsimp only
  by_cases h1 : normalized_lifestyle a ≠ ∅ ∧ normalized_lifestyle b ≠ ∅
  · rw [if_pos h1, if_pos h1]
    by_cases h2 : normalized_lifestyle a ∪ normalized_lifestyle b ≠ ∅
    · rw [if_pos h2, if_pos h2]
      unfold safeDiv
      have hcard : ((normalized_lifestyle a ∪ normalized_lifestyle b).card : ℚ)
          ≠ 0 := by
        exact_mod_cast Finset.card_ne_zero.mpr
          (Finset.nonempty_iff_ne_empty.mpr h2)
      rw [if_neg hcard]
      rfl
    · rw [if_neg h2, if_neg h2]
  · rw [if_neg h1, if_neg h1]

/-- C4: the scorer is total — the division-checked variant always
returns `some` (no Python division can raise), and when both profiles
have empty location sets, empty lifestyle sets and absent budgets every
component contributes 0 and the score is exactly 0. -/
theorem scorer_total_and_zero_on_empty (a b : User) :
    calculate_compatibility_checked a b =
      some (calculate_compatibility a b) ∧
    (normalized_locations a = ∅ → normalized_lifestyle a = ∅ →
     a.budget = none → normalized_locations b = ∅ →
     normalized_lifestyle b = ∅ → b.budget = none →
     calculate_compatibility a b = 0) := by
  constructor
  · unfold calculate_compatibility_checked calculate_compatibility
    rw [budget_component_checked_eq, lifestyle_component_checked_eq]
    rfl
  · intro hla hfa hba hlb hfb hbb
    have h1 : location_component a b = 0 := by
      unfold location_component
      dsimp only
      rw [if_neg]
      intro hc
      exact hc.1 hla
    have h2 : budget_component a b = 0 := by
      unfold budget_component
      rw [hba]
    have h3 : lifestyle_component a b = 0 := by
      unfold lifestyle_component
      dsimp only
      rw [if_neg]
      intro hc
      exact hc.1 hfa
    unfold calculate_compatibility
    rw [h1, h2, h3]
    have hmin : min ((0 : ℚ) + 0 + 0) 10 = 0 := by norm_num
    rw [hmin, round1_zero]

/-- A completely empty profile. -/
def empty_user : User := ⟨60, none, "", ""⟩

/-- A second completely empty profile. -/
def empty_user2 : User := ⟨61, none, "", ""⟩

/-- Witness for C4 on two all-empty profiles. -/
theorem scorer_total_and_zero_on_empty_witness :
    calculate_compatibility_checked empty_user empty_user2 =
      some (calculate_compatibility empty_user empty_user2) ∧
    calculate_compatibility empty_user empty_user2 = 0 :=
  ⟨(scorer_total_and_zero_on_empty empty_user empty_user2).1,
   (scorer_total_and_zero_on_empty empty_user empty_user2).2
     (by decide) (by decide) rfl (by decide) (by decide) rfl⟩

/-- C5: the location component is `min(|C| * 2.5, 5.0)` when both sets
are non-empty and 0 otherwise, so an intersection of size 0 yields 0.0,
size 1 yields 2.5, and size 2 or more saturates at 5.0. -/
theorem location_component_spec (a b : User) :
    location_component a b =
      (if normalized_locations a ≠ ∅ ∧ normalized_locations b ≠ ∅ then
        min (((normalized_locations a ∩ normalized_locations b).card : ℚ)
          * 2.5) 5
      else 0) ∧
    ((normalized_locations a ∩ normalized_locations b).card = 0 →
      location_component a b = 0) ∧
    ((normalized_locations a ∩ normalized_locations b).card = 1 →
      location_component a b = 2.5) ∧
    (2 ≤ (normalized_locations a ∩ normalized_locations b).card →
      location_component a b = 5) := by
  have hmain : location_component a b =
      if normalized_locations a ≠ ∅ ∧ normalized_locations b ≠ ∅ then
        min (((normalized_locations a ∩ normalized_locations b).card : ℚ)
          * 2.5) 5
      else 0 := by
    unfold location_component
    dsimp only
    by_cases h1 : normalized_locations a ≠ ∅ ∧ normalized_locations b ≠ ∅
    · rw [if_pos h1, if_pos h1]
      by_cases h2 : normalized_locations a ∩ normalized_locations b ≠ ∅
      · rw [if_pos h2]
      · rw [if_neg h2]
        rw [not_not.mp h2, Finset.card_empty]
        rw [Nat.cast_zero, zero_mul]
        rw [min_eq_left (by norm_num : (0 : ℚ) ≤ 5)]
    · rw [if_neg h1, if_neg h1]
  have hboth : ∀ n : ℕ,
      (normalized_locations a ∩ normalized_locations b).card = n → n ≠ 0 →
      normalized_locations a ≠ ∅ ∧ normalized_locations b ≠ ∅ := by
    intro n hn hnz
    have hne : (normalized_locations a ∩ normalized_locations b).Nonempty := by
      rw [← Finset.card_pos, hn]
      omega
    constructor
    · exact Finset.nonempty_iff_ne_empty.mp
        (hne.mono Finset.inter_subset_left)
    · exact Finset.nonempty_iff_ne_empty.mp
        (hne.mono Finset.inter_subset_right)
  refine ⟨hmain, ?_, ?_, ?_⟩
  · intro h0
    rw [hmain]
    by_cases h1 : normalized_locations a ≠ ∅ ∧ normalized_locations b ≠ ∅
    · rw [if_pos h1, h0, Nat.cast_zero, zero_mul]
      exact min_eq_left (by norm_num)
    · rw [if_neg h1]
  · intro h1c
    rw [hmain, if_pos (hboth 1 h1c one_ne_zero), h1c]
    rw [Nat.cast_one, one_mul]
    exact min_eq_left (by norm_num)
  · intro h2c
    have hcardnz : (normalized_locations a ∩ normalized_locations b).card ≠ 0 :=
      by omega
    rw [hmain, if_pos (hboth _ rfl hcardnz)]
    have hc : (2 : ℚ) ≤
        ((normalized_locations a ∩ normalized_locations b).card : ℚ) := by
      exact_mod_cast h2c
    exact min_eq_right (by nlinarith)

/-- A profile preferring two cities, no budget, no tags. -/
def pair_loc_user : User := ⟨70, none, "mumbai, pune", ""⟩

/-- A profile sharing exactly one city (up to case) with
`pair_loc_user`. -/
def cased_loc_user : User := ⟨71, none, "Mumbai, delhi", ""⟩

/-- Witness for C5: a one-element intersection (obtained across
differing letter case) yields exactly 2.5. -/
theorem location_component_spec_witness :
    (normalized_locations pair_loc_user ∩
      normalized_locations cased_loc_user).card = 1 ∧
    location_component pair_loc_user cased_loc_user = 2.5 :=
  ⟨by decide,
   (location_component_spec pair_loc_user cased_loc_user).2.2.1 (by decide)⟩

theorem location_component_comm (a b : User) :
    location_component a b = location_component b a := by
  unfold location_component
  dsimp only
  by_cases h1 : normalized_locations a ≠ ∅ <;>
    by_cases h2 : normalized_locations b ≠ ∅
  · rw [Finset.inter_comm]
    exact if_congr and_comm rfl rfl
  · rw [if_neg (fun hc => h2 hc.2), if_neg (fun hc => h2 hc.1)]
  · rw [if_neg (fun hc => h1 hc.1), if_neg (fun hc => h1 hc.2)]
  · rw [if_neg (fun hc => h1 hc.1), if_neg (fun hc => h1 hc.2)]

theorem budget_component_comm (a b : User) :
    budget_component a b = budget_component b a := by
  unfold budget_component
  cases a.budget with
  | none =>
    cases b.budget with
    | none => rfl
    | some b2 => rfl
  | some b1 =>
    cases b.budget with
    | none => rfl
    | some b2 =>
      dsimp only
      by_cases hc : b1 ≠ 0 ∧ b2 ≠ 0
      · rw [if_pos hc, if_pos (show b2 ≠ 0 ∧ b1 ≠ 0 from ⟨hc.2, hc.1⟩),
          abs_sub_comm, max_comm (b1 : ℚ) (b2 : ℚ)]
      · rw [if_neg hc, if_neg (fun h => hc ⟨h.2, h.1⟩)]

theorem lifestyle_component_comm (a b : User) :
    lifestyle_component a b = lifestyle_component b a := by
  unfold lifestyle_component
  dsimp only
  by_cases h1 : normalized_lifestyle a ≠ ∅ <;>
    by_cases h2 : normalized_lifestyle b ≠ ∅
  · rw [Finset.inter_comm (normalized_lifestyle a),
      Finset.union_comm (normalized_lifestyle a)]
    exact if_congr and_comm rfl rfl
  · rw [if_neg (fun hc => h2 hc.2), if_neg (fun hc => h2 hc.1)]
  · rw [if_neg (fun hc => h1 hc.1), if_neg (fun hc => h1 hc.2)]
  · rw [if_neg (fun hc => h1 hc.1), if_neg (fun hc => h1 hc.2)]

/-- C6: the compatibility score is symmetric in its two profiles. -/
theorem score_symmetric (a b : User) :
    calculate_compatibility a b = calculate_compatibility b a := by
  unfold calculate_compatibility
  rw [location_component_comm, budget_component_comm, lifestyle_component_comm]

/-- C7: with no reference profile (anonymous caller) every candidate is
scored 0 and the supplied order is returned unchanged — no sort runs. -/
theorem rank_none_scores_zero_in_order (users : List User) :
    rank none users = users.map (fun u => (u, (0 : ℚ))) := rfl

theorem mem_insertDesc (x z : User × ℚ) (l : List (User × ℚ)) :
    z ∈ insertDesc x l ↔ z = x ∨ z ∈ l := by
  induction l with
  | nil => simp [insertDesc]
  | cons y ys ih =>
    unfold insertDesc
    split
    · simp [List.mem_cons]
    · simp only [List.mem_cons, ih]
      tauto

theorem pairwise_insertDesc (x : User × ℚ) (l : List (User × ℚ))
    (h : l.Pairwise (fun p q => q.2 ≤ p.2)) :
    (insertDesc x l).Pairwise (fun p q => q.2 ≤ p.2) := by
  induction l with
  | nil => simp [insertDesc]
  | cons y ys ih =>
    unfold insertDesc
    rcases List.pairwise_cons.mp h with ⟨hy, hys⟩
    split
    · next hle =>
      refine List.pairwise_cons.mpr ⟨?_, h⟩
      intro z hz
      rcases List.mem_cons.mp hz with rfl | hz'
      · exact hle
      · exact le_trans (hy z hz') hle
    · next hgt =>
      refine List.pairwise_cons.mpr ⟨?_, ih hys⟩
      intro z hz
      rcases (mem_insertDesc x z ys).mp hz with rfl | hz'
      · exact le_of_lt (not_le.mp hgt)
      · exact hy z hz'

theorem pairwise_sortDesc (l : List (User × ℚ)) :
    (sortDesc l).Pairwise (fun p q => q.2 ≤ p.2) := by
  induction l with
  | nil => exact List.Pairwise.nil
  | cons x xs ih => exact pairwise_insertDesc x (sortDesc xs) ih

theorem filter_insertDesc (s : ℚ) (x : User × ℚ) (l : List (User × ℚ)) :
    (insertDesc x l).filter (fun p => decide (p.2 = s)) =
      (x :: l).filter (fun p => decide (p.2 = s)) := by
  induction l with
  | nil => rfl
  | cons y ys ih =>
    unfold insertDesc
    split
    · rfl
    · next hgt =>
      by_cases hx : x.2 = s <;> by_cases hy : y.2 = s
      · exact absurd (hy.trans hx.symm ▸ le_refl y.2) hgt
      · simp only [List.filter_cons, ih]
        simp [hx, hy]
      · simp only [List.filter_cons, ih]
        simp [hx, hy]
      · simp only [List.filter_cons, ih]
        simp [hx, hy]

theorem filter_sortDesc (s : ℚ) (l : List (User × ℚ)) :
    (sortDesc l).filter (fun p => decide (p.2 = s)) =
      l.filter (fun p => decide (p.2 = s)) := by
  induction l with
  | nil => rfl
  | cons x xs ih =>
    unfold sortDesc
    rw [filter_insertDesc, List.filter_cons, List.filter_cons, ih]

/-- Reference profile for the concrete ranking example. -/
def c8_ref : User := ⟨20, some 1000, "mumbai, pune", "clean, vegan"⟩

/-- Candidate scoring 3.2 against `c8_ref` (one shared location,
Jaccard 1/3 lifestyle, no budget). -/
def c8_cand0 : User := ⟨21, none, "mumbai", "clean, social"⟩

/-- Candidate scoring 7.1 against `c8_ref` (two shared locations,
budget 700 against 1000). -/
def c8_cand1 : User := ⟨22, some 700, "mumbai, pune", ""⟩

/-- Second candidate scoring 7.1, supplied after `c8_cand1`. -/
def c8_cand2 : User := ⟨23, some 700, "pune, mumbai", ""⟩

/-- Candidate scoring 0.0 against `c8_ref` (nothing shared). -/
def c8_cand3 : User := ⟨24, none, "", ""⟩

set_option maxRecDepth 16384 in
/-- C8: with a reference profile, `rank` returns the candidates sorted
by descending score; ties keep the supplied relative order (for each
score value, filtering the output to that score gives exactly the
as-supplied sublist), and on candidates scoring 3.2, 7.1, 7.1, 0.0 the
output order is candidate 1, candidate 2, candidate 0, candidate 3. -/
theorem rank_sorted_stable_with_example :
    (∀ (r : User) (users : List User),
      (rank (some r) users).Pairwise (fun p q => q.2 ≤ p.2) ∧
      ∀ s : ℚ, (rank (some r) users).filter (fun p => decide (p.2 = s)) =
        (score_candidates (some r) users).filter
          (fun p => decide (p.2 = s))) ∧
    rank (some c8_ref) [c8_cand0, c8_cand1, c8_cand2, c8_cand3] =
      [(c8_cand1, 7.1), (c8_cand2, 7.1), (c8_cand0, 3.2), (c8_cand3, 0)] := by
  constructor
  · intro r users
    exact ⟨pairwise_sortDesc (score_candidates (some r) users),
      fun s => filter_sortDesc s (score_candidates (some r) users)⟩
  · with_unfolding_all decide

/-- A profile whose raw location text is a single comma. -/
def comma_user : User := ⟨10, none, ",", ""⟩

/-- A profile whose raw location text is commas and whitespace only. -/
def comma_user2 : User := ⟨11, none, ", ,", ""⟩

/-- C9 counterexample: empty segments are NOT dropped by the
normalization, so raw text consisting of a single comma produces a
location set containing the empty string, and two comma-only profiles
receive a non-zero location component. -/
theorem normalized_locations_contains_empty_string :
    "" ∈ normalized_locations comma_user ∧
    location_component comma_user comma_user2 ≠ 0 := by
  constructor
  · decide
  · with_unfolding_all decide

/-- C9 (amended): the compared sets are obtained by splitting the raw
text on commas and trimming and lower-casing each segment, WITHOUT
dropping empty segments; raw text consisting only of commas and
whitespace therefore yields the singleton set containing the empty
string, and two such profiles share it, for a location component of
2.5 rather than 0. -/
theorem normalization_keeps_empty_segments :
    (∀ u : User, normalized_locations u =
      if u.preferred_locations = "" then ∅
      else ((pySplitComma u.preferred_locations.data).map
        (fun seg => String.mk (pyLower (pyStrip seg)))).toFinset) ∧
    normalized_locations comma_user = {""} ∧
    location_component comma_user comma_user2 = 2.5 := by
  refine ⟨?_, by decide, ?_⟩
  · intro u
    unfold normalized_locations User.get_locations_list
    by_cases h : u.preferred_locations = ""
    · rw [if_pos h, if_pos h]
      rfl
    · rw [if_neg h, if_neg h, List.map_map]
      rfl
  · with_unfolding_all decide

theorem mem_apply_budget_filters (mn mx : Option Int) (users : List User)
    (u : User) (hu : u ∈ apply_budget_filters mn mx users) :
    (∀ m, mn = some m → m ≠ 0 → sql_budget_ge u.budget m = true) ∧
    (∀ m, mx = some m → m ≠ 0 → sql_budget_le u.budget m = true) := by
  unfold apply_budget_filters at hu
  cases mn with
  | none =>
    cases mx with
    | none => exact ⟨fun m h => Option.noConfusion h, fun m h => Option.noConfusion h⟩
    | some m2 =>
      dsimp only at hu
      refine ⟨fun m h => Option.noConfusion h, fun m h hm0 => ?_⟩
      injection h with h
      subst h
      rw [if_pos hm0] at hu
      exact (List.mem_filter.mp hu).2
  | some m1 =>
    dsimp only at hu
    by_cases hm1 : m1 ≠ 0
    · rw [if_pos hm1] at hu
      cases mx with
      | none =>
        refine ⟨fun m h hm0 => ?_, fun m h => Option.noConfusion h⟩
        injection h with h
        subst h
        exact (List.mem_filter.mp hu).2
      | some m2 =>
        dsimp only at hu
        by_cases hm2 : m2 ≠ 0
        · rw [if_pos hm2] at hu
          have hu2 := List.mem_filter.mp hu
          refine ⟨fun m h hm0 => ?_, fun m h hm0 => ?_⟩
          · injection h with h
            subst h
            exact (List.mem_filter.mp hu2.1).2
          · injection h with h
            subst h
            exact hu2.2
        · rw [if_neg hm2] at hu
          refine ⟨fun m h hm0 => ?_, fun m h hm0 => ?_⟩
          · injection h with h
            subst h
            exact (List.mem_filter.mp hu).2
          · injection h with h
            subst h
            exact absurd hm0 hm2
    · rw [if_neg hm1] at hu
      cases mx with
      | none =>
        refine ⟨fun m h hm0 => ?_, fun m h => Option.noConfusion h⟩
        injection h with h
        subst h
        exact absurd hm0 hm1
      | some m2 =>
        dsimp only at hu
        by_cases hm2 : m2 ≠ 0
        · rw [if_pos hm2] at hu
          refine ⟨fun m h hm0 => ?_, fun m h hm0 => ?_⟩
          · injection h with h
            subst h
            exact absurd hm0 hm1
          · injection h with h
            subst h
            exact (List.mem_filter.mp hu).2
        · rw [if_neg hm2] at hu
          refine ⟨fun m h hm0 => ?_, fun m h hm0 => ?_⟩
          · injection h with h
            subst h
            exact absurd hm0 hm1
          · injection h with h
            subst h
            exact absurd hm0 hm2

/-- C10: when a positive `min_budget` or `max_budget` bound is applied,
every candidate surviving the budget pre-filter has a present budget:
a candidate with an absent (NULL) budget fails the SQL comparison and
is removed before scoring. -/
theorem budget_filter_excludes_absent (mn mx : Option Int)
    (users : List User) (u : User)
    (hpos : (∃ m, mn = some m ∧ 0 < m) ∨ (∃ m, mx = some m ∧ 0 < m))
    (hu : u ∈ apply_budget_filters mn mx users) : u.budget ≠ none := by
  have h := mem_apply_budget_filters mn mx users u hu
  rcases hpos with ⟨m, hm, hmpos⟩ | ⟨m, hm, hmpos⟩
  · have hge := h.1 m hm (by omega)
    cases hb : u.budget with
    | none =>
      rw [hb] at hge
      simp [sql_budget_ge] at hge
    | some bv => simp [hb]
  · have hle := h.2 m hm (by omega)
    cases hb : u.budget with
    | none =>
      rw [hb] at hle
      simp [sql_budget_le] at hle
    | some bv => simp [hb]

/-- A candidate with a present budget of 700. -/
def budgeted_user : User := ⟨80, some 700, "", ""⟩

/-- Witness for C10: with `min_budget = 500`, `budgeted_user` survives
the filter and indeed has a present budget. -/
theorem budget_filter_excludes_absent_witness : budgeted_user.budget ≠ none :=
  budget_filter_excludes_absent (some 500) none [budgeted_user] budgeted_user
    (Or.inl ⟨500, rfl, by norm_num⟩) (by decide)
